import Mathlib

/-
  Verification of the federated round orchestration and aggregation
  behaviour exercised by the Flower tutorial notebooks
  (doc/source/tutorial/Flower-1-Intro-to-FL-PyTorch.ipynb and
  Flower-2-Strategies-in-FL-PyTorch.ipynb).

  Numeric scalars of the Python code (floats) are embedded as rationals ℚ,
  so the weighted averages are exact.  Python dictionaries keyed by strings
  are embedded as association lists looked up with List.lookup.
-/

namespace Flower

/-- A metrics dictionary: string keys mapped to numeric scalars, as the
Python `Metrics` dict of the notebooks. -/
abbrev Metrics := List (String × ℚ)

/-- Run-time errors the Python function `weighted_average` can raise:
a `KeyError` from `m["accuracy"]` on a pair whose dict lacks the key, and a
`ZeroDivisionError` from `sum(accuracies) / sum(examples)` when the total
example count is zero (in particular on the empty list). -/
inductive PyError where
  | keyError
  | zeroDivision
deriving DecidableEq

/-- The list comprehension
`[num_examples * m["accuracy"] for num_examples, m in metrics]` of the
notebook's `weighted_average`: evaluates each `m["accuracy"]` in order and
fails (KeyError) as soon as one dict lacks the key. -/
def accTerms : List (ℕ × Metrics) → Option (List ℚ)
  | [] => some []
  | (n, m) :: rest =>
    match m.lookup "accuracy", accTerms rest with
    | some a, some l => some ((n : ℚ) * a :: l)
    | _, _ => none

/-- The notebook's metrics aggregator (Flower-1 notebook, cell defining
`weighted_average`):

    def weighted_average(metrics):
        accuracies = [num_examples * m["accuracy"] for num_examples, m in metrics]
        examples = [num_examples for num_examples, _ in metrics]
        return {"accuracy": sum(accuracies) / sum(examples)}

The comprehension for `accuracies` is evaluated first, so a missing
"accuracy" key raises KeyError before the division; a zero total example
count (e.g. the empty list) raises ZeroDivisionError. -/
def weighted_average (metrics : List (ℕ × Metrics)) : Except PyError Metrics :=
  match accTerms metrics with
  | none => .error .keyError
  | some accuracies =>
    let examples := metrics.map Prod.fst
    if examples.sum = 0 then .error .zeroDivision
    else .ok [("accuracy", accuracies.sum / (examples.sum : ℚ))]

theorem accTerms_cons (n : ℕ) (m : Metrics) (t : List (ℕ × Metrics)) :
    accTerms ((n, m) :: t) =
      match m.lookup "accuracy", accTerms t with
      | some a, some l => some ((n : ℚ) * a :: l)
      | _, _ => none := rfl

theorem accTerms_eq_none {l : List (ℕ × Metrics)} :
    accTerms l = none ↔ ∃ p ∈ l, p.2.lookup "accuracy" = none := by
  induction l with
  | nil => simp [accTerms]
  | cons a t ih =>
    obtain ⟨n, m⟩ := a
    rw [accTerms_cons]
    cases ha : m.lookup "accuracy" with
    | none =>
      constructor
      · intro _; exact ⟨(n, m), List.mem_cons_self _ _, ha⟩
      · intro _; cases accTerms t <;> rfl
    | some v =>
      cases ht : accTerms t with
      | none =>
        constructor
        · intro _
          obtain ⟨p, hp, hpn⟩ := ih.mp ht
          exact ⟨p, List.mem_cons_of_mem _ hp, hpn⟩
        · intro _; rfl
      | some s =>
        constructor
        · intro h; exact absurd h (by simp)
        · rintro ⟨p, hp, hpn⟩
          rcases List.mem_cons.mp hp with rfl | hp'
          · rw [ha] at hpn; cases hpn
          · rw [ih.mpr ⟨p, hp', hpn⟩] at ht; cases ht

theorem accTerms_eq_some {l : List (ℕ × Metrics)}
    (h : ∀ p ∈ l, (p.2.lookup "accuracy").isSome) :
    accTerms l = some (l.map fun p => (p.1 : ℚ) * (p.2.lookup "accuracy").getD 0) := by
  induction l with
  | nil => simp [accTerms]
  | cons a t ih =>
    have ha := h a (by simp)
    obtain ⟨v, hv⟩ := Option.isSome_iff_exists.mp ha
    rw [List.map_cons]
    simp only [accTerms, hv, ih fun p hp => h p (List.mem_cons_of_mem a hp)]
    simp [hv]

/-- C2: for every non-empty list of (sample_count, metrics_map) pairs with
positive sample counts in which every map contains the key "accuracy",
weighted_average returns the map binding "accuracy" to
Σ(sample_count × accuracy) / Σ sample_count. -/
theorem weighted_average_accuracy (l : List (ℕ × Metrics))
    (hne : l ≠ [])
    (hpos : ∀ p ∈ l, 0 < p.1)
    (hacc : ∀ p ∈ l, (p.2.lookup "accuracy").isSome) :
    weighted_average l =
      .ok [("accuracy",
        (l.map fun p => (p.1 : ℚ) * (p.2.lookup "accuracy").getD 0).sum
          / (((l.map Prod.fst).sum : ℕ) : ℚ))] := by
  unfold weighted_average
  rw [accTerms_eq_some hacc]
  have hsum : (l.map Prod.fst).sum ≠ 0 := by
    cases l with
    | nil => exact absurd rfl hne
    | cons a t =>
      have := hpos a (by simp)
      simp only [List.map_cons, List.sum_cons]
      omega
  simp [hsum]

/-- C2 witness: aggregating [(100, {"accuracy": 0.5}), (50, {"accuracy": 0.8})]
yields accuracy (100×0.5+50×0.8)/150 = 0.6. -/
theorem weighted_average_accuracy_witness :
    (([(100, [("accuracy", (1:ℚ)/2)]), (50, [("accuracy", 4/5)])] : List (ℕ × Metrics)) ≠ []
      ∧ (∀ p ∈ ([(100, [("accuracy", (1:ℚ)/2)]), (50, [("accuracy", 4/5)])] : List (ℕ × Metrics)), 0 < p.1)
      ∧ (∀ p ∈ ([(100, [("accuracy", (1:ℚ)/2)]), (50, [("accuracy", 4/5)])] : List (ℕ × Metrics)),
          (p.2.lookup "accuracy").isSome))
    ∧ weighted_average [(100, [("accuracy", (1:ℚ)/2)]), (50, [("accuracy", 4/5)])]
        = .ok [("accuracy", 3/5)] := by
  refine ⟨⟨by simp, by decide, by decide⟩, ?_⟩
  rw [weighted_average_accuracy _ (by simp) (by decide) (by decide)]
  norm_num [List.lookup]

theorem weighted_average_keyError {l : List (ℕ × Metrics)}
    (h : ∃ p ∈ l, p.2.lookup "accuracy" = none) :
    weighted_average l = .error .keyError := by
  unfold weighted_average
  rw [accTerms_eq_none.mpr h]

theorem weighted_average_of_all_some {l : List (ℕ × Metrics)}
    (h : ∀ p ∈ l, (p.2.lookup "accuracy").isSome) :
    weighted_average l =
      if (l.map Prod.fst).sum = 0 then .error .zeroDivision
      else .ok [("accuracy",
        (l.map fun p => (p.1 : ℚ) * (p.2.lookup "accuracy").getD 0).sum
          / (((l.map Prod.fst).sum : ℕ) : ℚ))] := by
  unfold weighted_average
  rw [accTerms_eq_some h]

/-- C3 counterexample: the result pair (50, {}) lacks the key "accuracy",
and the aggregation call fails with a KeyError instead of excluding the
pair, so the claim that the call does not fail is false. -/
theorem weighted_average_missing_key_counterexample :
    weighted_average [(100, [("accuracy", (1:ℚ)/2)]), (50, [])]
      = .error .keyError := by
  norm_num [weighted_average, accTerms, List.lookup]

/-- C3 amended: weighted_average does not tolerate a pair whose metrics map
lacks the key "accuracy"; whenever some pair's map lacks the key, the whole
aggregation call fails with a KeyError (the pair is not excluded from the
weighted sum). -/
theorem weighted_average_missing_key_fails (l : List (ℕ × Metrics))
    (h : ∃ p ∈ l, p.2.lookup "accuracy" = none) :
    weighted_average l = .error .keyError :=
  weighted_average_keyError h

/-- C3 amended witness: the two-pair list whose second map is empty makes
the call fail with a KeyError. -/
theorem weighted_average_missing_key_fails_witness :
    (∃ p ∈ ([(100, [("accuracy", (1:ℚ)/2)]), (50, [])] : List (ℕ × Metrics)),
        p.2.lookup "accuracy" = none)
    ∧ weighted_average [(100, [("accuracy", (1:ℚ)/2)]), (50, [])]
        = .error .keyError := by
  have hx : ∃ p ∈ ([(100, [("accuracy", (1:ℚ)/2)]), (50, [])] : List (ℕ × Metrics)),
      p.2.lookup "accuracy" = none := ⟨(50, []), by simp, rfl⟩
  exact ⟨hx, weighted_average_missing_key_fails _ hx⟩

/-- C7: within a round, result arrival order is irrelevant: weighted_average
applied to any permutation of the result list returns the same outcome. -/
theorem weighted_average_perm_invariant (l l' : List (ℕ × Metrics))
    (h : l.Perm l') :
    weighted_average l = weighted_average l' := by
  by_cases hk : ∃ p ∈ l, p.2.lookup "accuracy" = none
  · obtain ⟨p, hp, hpn⟩ := hk
    rw [weighted_average_keyError ⟨p, hp, hpn⟩,
      weighted_average_keyError ⟨p, h.mem_iff.mp hp, hpn⟩]
  · push_neg at hk
    have halll : ∀ p ∈ l, (p.2.lookup "accuracy").isSome := by
      intro p hp
      exact Option.ne_none_iff_isSome.mp (hk p hp)
    have hall' : ∀ p ∈ l', (p.2.lookup "accuracy").isSome :=
      fun p hp => halll p (h.mem_iff.mpr hp)
    rw [weighted_average_of_all_some halll, weighted_average_of_all_some hall',
      (h.map Prod.fst).sum_eq,
      (h.map fun p => (p.1 : ℚ) * (p.2.lookup "accuracy").getD 0).sum_eq]

/-- C7 witness: swapping the two results of a concrete round leaves the
aggregated metrics unchanged. -/
theorem weighted_average_perm_invariant_witness :
    (([(100, [("accuracy", (1:ℚ)/2)]), (50, [("accuracy", 4/5)])] : List (ℕ × Metrics)).Perm
        [(50, [("accuracy", 4/5)]), (100, [("accuracy", (1:ℚ)/2)])])
    ∧ weighted_average [(100, [("accuracy", (1:ℚ)/2)]), (50, [("accuracy", 4/5)])]
        = weighted_average [(50, [("accuracy", 4/5)]), (100, [("accuracy", (1:ℚ)/2)])] := by
  have hp : (([(100, [("accuracy", (1:ℚ)/2)]), (50, [("accuracy", 4/5)])] : List (ℕ × Metrics)).Perm
      [(50, [("accuracy", 4/5)]), (100, [("accuracy", (1:ℚ)/2)])]) :=
    List.Perm.swap _ _ _
  exact ⟨hp, weighted_average_perm_invariant _ _ hp⟩

/-- Modelled from the spec: the error taxonomy of section 7 for the parts of
the framework that are not in the repository (ConfigurationError for
unsatisfiable sampling constraints, ParticipantError for a failed fit or
evaluate call, AggregationError for a round with zero eligible results). -/
inductive FlError where
  | configurationError
  | participantError
  | aggregationError
deriving DecidableEq

/-- Modelled from the spec: `aggregate_fit(results)` of the Strategy, whose
implementation lives in the external framework, not in the repository.  It
computes the sample-count-weighted element-wise average of the returned
parameter sequences (each flattened here to one vector of rationals):
new_param[i] = Σ(sample_count_j × param_j[i]) / Σ sample_count_j.  An empty
result set, or one of total weight zero, yields no aggregate (the spec skips
the aggregation step in that case). -/
def aggregate_fit (results : List (ℕ × List ℚ)) : Option (List ℚ) :=
  match results with
  | [] => none
  | (_, p₀) :: _ =>
    let total : ℕ := (results.map Prod.fst).sum
    if total = 0 then none
    else some ((List.range p₀.length).map fun i =>
      (results.map fun r => (r.1 : ℚ) * r.2.getD i 0).sum / (total : ℚ))

theorem getD_map_range (f : ℕ → ℚ) (d i : ℕ) (h : i < d) :
    ((List.range d).map f).getD i 0 = f i := by
  rw [List.getD_eq_getElem _ _ (by simpa using h)]
  simp

theorem map_getD_range (p : List ℚ) :
    (List.range p.length).map (fun i => p.getD i 0) = p := by
  apply List.ext_getElem
  · simp
  · intro i h1 h2
    rw [List.getElem_map, List.getElem_range, List.getD_eq_getElem _ _ h2]

/-- C1: for every non-empty list of fit results with positive sample counts
(and a common parameter length d), aggregate_fit returns the
sample-count-weighted element-wise average: for each index i below d,
new_param[i] = Σ(sample_count_j × param_j[i]) / Σ sample_count_j. -/
theorem aggregate_fit_weighted_average (results : List (ℕ × List ℚ)) (d : ℕ)
    (hne : results ≠ [])
    (hpos : ∀ r ∈ results, 0 < r.1)
    (hd : ∀ r ∈ results, r.2.length = d) :
    ∃ v, aggregate_fit results = some v ∧ v.length = d ∧
      ∀ i < d, v.getD i 0 =
        (results.map fun r => (r.1 : ℚ) * r.2.getD i 0).sum
          / ((((results.map Prod.fst).sum : ℕ)) : ℚ) := by
  cases results with
  | nil => exact absurd rfl hne
  | cons a rest =>
    obtain ⟨n₀, p₀⟩ := a
    have htot : ((((n₀, p₀) :: rest).map Prod.fst).sum) ≠ 0 := by
      have := hpos (n₀, p₀) (by simp)
      simp only [List.map_cons, List.sum_cons]
      omega
    have hp₀ : p₀.length = d := hd (n₀, p₀) (by simp)
    refine ⟨(List.range p₀.length).map fun i =>
      ((((n₀, p₀) :: rest).map fun r => (r.1 : ℚ) * r.2.getD i 0).sum
        / (((((n₀, p₀) :: rest).map Prod.fst).sum : ℕ) : ℚ)), ?_, ?_, ?_⟩
    · unfold aggregate_fit
      simp only [htot, if_neg, ite_false]
    · simpa using hp₀
    · intro i hi
      rw [hp₀] at *
      exact getD_map_range _ d i hi

/-- C1 witness: aggregating the two fit results
[(sample_count=400, param=[1.0]), (sample_count=100, param=[5.0])] yields
the parameter [1.8] = [9/5]. -/
theorem aggregate_fit_weighted_average_witness :
    (([((400:ℕ), [(1:ℚ)]), (100, [5])] : List (ℕ × List ℚ)) ≠ []
      ∧ (∀ r ∈ ([((400:ℕ), [(1:ℚ)]), (100, [5])] : List (ℕ × List ℚ)), 0 < r.1)
      ∧ (∀ r ∈ ([((400:ℕ), [(1:ℚ)]), (100, [5])] : List (ℕ × List ℚ)), r.2.length = 1))
    ∧ (∃ v, aggregate_fit [((400:ℕ), [(1:ℚ)]), (100, [5])] = some v ∧ v.length = 1 ∧
        ∀ i < 1, v.getD i 0 =
          (([((400:ℕ), [(1:ℚ)]), (100, [5])] : List (ℕ × List ℚ)).map
              fun r => (r.1 : ℚ) * r.2.getD i 0).sum
            / (((([((400:ℕ), [(1:ℚ)]), (100, [5])] : List (ℕ × List ℚ)).map Prod.fst).sum : ℕ) : ℚ))
    ∧ aggregate_fit [((400:ℕ), [(1:ℚ)]), (100, [5])] = some [9/5] := by
  refine ⟨⟨by simp, by decide, by decide⟩,
    aggregate_fit_weighted_average _ 1 (by simp) (by decide) (by decide), ?_⟩
  norm_num [aggregate_fit, List.range, List.range.loop]

/-- C8: aggregating a singleton result set is the identity, for the
parameter aggregation (aggregate_fit returns the single parameter vector
unchanged) and for the weighted_average metrics aggregator (the single
"accuracy" value is returned unchanged). -/
theorem singleton_aggregation_identity (n : ℕ) (p : List ℚ) (m : Metrics) (a : ℚ)
    (hn : 0 < n) (ha : m.lookup "accuracy" = some a) :
    aggregate_fit [(n, p)] = some p
    ∧ weighted_average [(n, m)] = .ok [("accuracy", a)] := by
  have hnq : ((n : ℕ) : ℚ) ≠ 0 := Nat.cast_ne_zero.mpr hn.ne'
  constructor
  · unfold aggregate_fit
    simp only [List.map_cons, List.map_nil, List.sum_cons, List.sum_nil,
      Nat.add_zero, add_zero]
    rw [if_neg hn.ne']
    simp only [mul_div_cancel_left₀ _ hnq]
    rw [map_getD_range]
  · rw [weighted_average_of_all_some (by
      intro q hq
      rw [List.mem_singleton.mp hq]
      simp [ha])]
    rw [if_neg (by simpa using hn.ne')]
    simp [ha, mul_div_cancel_left₀ _ hnq]

/-- C8 witness: the singleton fit result (3, [2, 7]) aggregates to [2, 7],
and the singleton metrics result (3, {"accuracy": 5}) aggregates to
{"accuracy": 5}. -/
theorem singleton_aggregation_identity_witness :
    (0 < 3 ∧ (([("accuracy", (5:ℚ))] : Metrics).lookup "accuracy" = some 5))
    ∧ (aggregate_fit [(3, [(2:ℚ), 7])] = some [2, 7]
      ∧ weighted_average [(3, [("accuracy", (5:ℚ))])] = .ok [("accuracy", 5)]) :=
  ⟨⟨by decide, rfl⟩, singleton_aggregation_identity 3 [2, 7] _ 5 (by decide) rfl⟩

/-- Modelled from the spec: Strategy.select(available_ids, fraction, minimum)
of the external framework (the notebooks only configure it through FedAvg's
fraction_fit / min_fit_clients / min_available_clients arguments).  It is
deterministic given a fixed random seed and draws
k = clamp(ceil(fraction × |available_ids|), minimum, |available_ids|)
distinct ids without replacement; it fails with a ConfigurationError when
minimum > |available_ids|.  The fixed-seed uniform draw without replacement
is modelled by taking the first k ids of the availability list (one concrete
permutation of the pool). -/
def select (available_ids : List ℕ) (fraction : ℚ) (minimum : ℕ) :
    Except FlError (List ℕ) :=
  if available_ids.length < minimum then .error .configurationError
  else
    .ok (available_ids.take
      (min (max (⌈fraction * (available_ids.length : ℚ)⌉.toNat) minimum)
        available_ids.length))

/-- C5: whenever minimum ≤ |available_ids| (ids pairwise distinct), select
returns exactly k = clamp(ceil(fraction × |available_ids|), minimum,
|available_ids|) pairwise-distinct ids drawn from available_ids, never fewer
than minimum and never more than |available_ids|. -/
theorem select_bounds (available_ids : List ℕ) (fraction : ℚ) (minimum : ℕ)
    (hmin : minimum ≤ available_ids.length) (hnd : available_ids.Nodup) :
    ∃ s, select available_ids fraction minimum = .ok s
      ∧ s.length = min (max (⌈fraction * (available_ids.length : ℚ)⌉.toNat) minimum)
          available_ids.length
      ∧ s.Nodup ∧ (∀ x ∈ s, x ∈ available_ids)
      ∧ minimum ≤ s.length ∧ s.length ≤ available_ids.length := by
  set k := min (max (⌈fraction * (available_ids.length : ℚ)⌉.toNat) minimum)
    available_ids.length with hk
  have hklen : (available_ids.take k).length = k := by
    rw [List.length_take]
    exact Nat.min_eq_left (Nat.min_le_right _ _)
  refine ⟨available_ids.take k, ?_, ?_, ?_, ?_, ?_, ?_⟩
  · unfold select
    rw [if_neg (not_lt.mpr hmin)]
  · exact hklen
  · exact (List.take_sublist _ _).nodup hnd
  · exact fun x hx => List.take_subset _ _ hx
  · rw [hklen]
    exact le_min (le_max_right _ _) hmin
  · rw [hklen]
    exact Nat.min_le_right _ _

/-- C5 witness: with the 10 distinct participants 0..9, fraction 1.0 and
minimum 10, select succeeds and returns all 10 ids. -/
theorem select_bounds_witness :
    (10 ≤ (List.range 10).length ∧ (List.range 10).Nodup)
    ∧ (∃ s, select (List.range 10) 1 10 = .ok s
        ∧ s.length = min (max (⌈(1:ℚ) * ((List.range 10).length : ℚ)⌉.toNat) 10)
            (List.range 10).length
        ∧ s.Nodup ∧ (∀ x ∈ s, x ∈ List.range 10)
        ∧ 10 ≤ s.length ∧ s.length ≤ (List.range 10).length)
    ∧ select (List.range 10) 1 10 = .ok (List.range 10) := by
  refine ⟨⟨by simp, List.nodup_range 10⟩,
    select_bounds _ 1 10 (by simp) (List.nodup_range 10), ?_⟩
  unfold select
  rw [if_neg (by simp)]
  congr 1
  rw [show ((List.range 10).length : ℚ) = ((10 : ℕ) : ℚ) by norm_num]
  rw [one_mul, Int.ceil_natCast]
  norm_num

/-- Modelled from the spec: one round's fit phase of the RoundCoordinator,
whose implementation lives in the external framework.  `params` is the value
of ParameterStore.current() before the round; each selected participant's
outcome is either some fit result or none (the participant raised an error
and is dropped from the aggregation set).  If the eligible set is empty the
aggregation step is skipped and the previous round's parameters are carried
forward unchanged; otherwise the aggregate replaces them.  The returned list
is ParameterStore.current() after the round. -/
def roundStep (params : List ℚ) (outcomes : List (Option (ℕ × List ℚ))) :
    List ℚ :=
  let results := outcomes.filterMap id
  if results.isEmpty then params
  else (aggregate_fit results).getD params

/-- Modelled from the spec: the RoundCoordinator runs rounds 1..n strictly
sequentially, each round's aggregated parameters becoming the next round's
input. -/
def runRounds (outcomes : ℕ → List (Option (ℕ × List ℚ))) (init : List ℚ) :
    ℕ → List ℚ
  | 0 => init
  | n + 1 => roundStep (runRounds outcomes init n) (outcomes (n + 1))

/-- Modelled from the spec: a full run validates the sampling configuration
by selecting from the participant pool; an unsatisfiable configuration
(minimum > pool size) is a ConfigurationError that aborts the run before any
round executes.  The second component counts the rounds that executed. -/
def runSimulation (pool : List ℕ) (fraction : ℚ) (minimum : ℕ)
    (numRounds : ℕ) (init : List ℚ)
    (outcomes : ℕ → List (Option (ℕ × List ℚ))) :
    Except FlError (List ℚ) × ℕ :=
  match select pool fraction minimum with
  | .error e => (.error e, 0)
  | .ok _ => (.ok (runRounds outcomes init numRounds), numRounds)

/-- C4: if every selected participant of a round fails (every outcome is
none), the round's aggregation step is skipped and the parameters are
carried forward unchanged: roundStep returns its input, and in the
sequential driver the parameters after such a round equal the parameters
before it; no error is raised (both functions are total). -/
theorem round_skip_carries_forward (params : List ℚ)
    (os : List (Option (ℕ × List ℚ)))
    (outcomes : ℕ → List (Option (ℕ × List ℚ))) (init : List ℚ) (r : ℕ)
    (h1 : ∀ o ∈ os, o = none) (h2 : ∀ o ∈ outcomes (r + 1), o = none) :
    roundStep params os = params
    ∧ runRounds outcomes init (r + 1) = runRounds outcomes init r := by
  have key : ∀ (ps : List ℚ) (xs : List (Option (ℕ × List ℚ))),
      (∀ o ∈ xs, o = none) → roundStep ps xs = ps := by
    intro ps xs hx
    unfold roundStep
    have hnil : xs.filterMap id = [] := by
      rw [List.filterMap_eq_nil_iff]
      exact hx
    simp [hnil]
  exact ⟨key _ _ h1, key _ _ h2⟩

/-- C4 witness: a round whose two selected participants both fail leaves the
parameters [2, 3] unchanged, and in the driver round 1 with one failing
participant leaves the initial parameters [1] unchanged. -/
theorem round_skip_carries_forward_witness :
    ((∀ o ∈ ([none, none] : List (Option (ℕ × List ℚ))), o = none)
      ∧ (∀ o ∈ (fun _ : ℕ => ([none] : List (Option (ℕ × List ℚ)))) (0 + 1),
          o = none))
    ∧ (roundStep [(2:ℚ), 3] [none, none] = [(2:ℚ), 3]
      ∧ runRounds (fun _ => [none]) [(1:ℚ)] (0 + 1)
          = runRounds (fun _ => [none]) [(1:ℚ)] 0) :=
  ⟨⟨by simp, by simp⟩,
    round_skip_carries_forward [(2:ℚ), 3] [none, none]
      (fun _ => [none]) [(1:ℚ)] 0 (by simp) (by simp)⟩

/-- C6: select fails exactly when minimum > |available_ids|; the failure is
deterministic, is a ConfigurationError, and makes the run abort with zero
rounds executed. -/
theorem select_fail_iff_config (available_ids : List ℕ) (fraction : ℚ)
    (minimum : ℕ) (numRounds : ℕ) (init : List ℚ)
    (outcomes : ℕ → List (Option (ℕ × List ℚ))) :
    ((∃ e, select available_ids fraction minimum = .error e)
        ↔ available_ids.length < minimum)
    ∧ (available_ids.length < minimum →
        select available_ids fraction minimum = .error .configurationError
        ∧ runSimulation available_ids fraction minimum numRounds init outcomes
            = (.error .configurationError, 0)) := by
  by_cases h : available_ids.length < minimum
  · have hsel : select available_ids fraction minimum
        = .error .configurationError := by
      unfold select
      rw [if_pos h]
    refine ⟨⟨fun _ => h, fun _ => ⟨_, hsel⟩⟩, fun _ => ⟨hsel, ?_⟩⟩
    unfold runSimulation
    rw [hsel]
  · have hsel : select available_ids fraction minimum
        = .ok (available_ids.take
          (min (max (⌈fraction * (available_ids.length : ℚ)⌉.toNat) minimum)
            available_ids.length)) := by
      unfold select
      rw [if_neg h]
    refine ⟨⟨?_, fun hc => absurd hc h⟩, fun hc => absurd hc h⟩
    rintro ⟨e, he⟩
    rw [hsel] at he
    cases he

/-- C6 witness: a pool of one participant with minimum 2 is unsatisfiable:
select fails with a ConfigurationError and the run aborts with zero rounds
executed. -/
theorem select_fail_iff_config_witness :
    (([5] : List ℕ).length < 2)
    ∧ ((∃ e, select [5] (1/2) 2 = .error e) ↔ ([5] : List ℕ).length < 2)
    ∧ select [5] (1/2) 2 = .error .configurationError
    ∧ runSimulation [5] (1/2) 2 4 [(1:ℚ)] (fun _ => [])
        = (.error .configurationError, 0) := by
  have h := select_fail_iff_config [5] (1/2) 2 4 [(1:ℚ)] (fun _ => [])
  exact ⟨by simp, h.1, (h.2 (by simp)).1, (h.2 (by simp)).2⟩

/-- A PyTorch DataLoader as the notebooks build one: a dataset of
numExamples examples served in mini-batches of batchSize (drop_last is left
at its default False), so Python's len(loader) is ⌈numExamples/batchSize⌉. -/
structure DataLoader where
  numExamples : ℕ
  batchSize : ℕ

/-- Python len() of a DataLoader with drop_last=False:
⌈numExamples / batchSize⌉ computed as (numExamples + batchSize - 1) / batchSize. -/
def DataLoader.len (dl : DataLoader) : ℕ :=
  (dl.numExamples + dl.batchSize - 1) / dl.batchSize

/-- The notebooks' FlowerClient: holds a net (a parameter vector here), a
trainloader and a valloader.  The out-of-scope local training and testing
steps (train/test on the net) are carried as opaque functions of the
parameters: localTrain yields the updated parameters, localTest the
(loss, accuracy) pair. -/
structure FlowerClient where
  trainloader : DataLoader
  valloader : DataLoader
  localTrain : List ℚ → List ℚ
  localTest : List ℚ → ℚ × ℚ

/-- FlowerClient.fit of the notebooks: sets the parameters, trains, and
returns (updated parameters, len(trainloader), {}). -/
def FlowerClient.fit (c : FlowerClient) (parameters : List ℚ) (_config : Metrics) :
    List ℚ × ℕ × Metrics :=
  (c.localTrain parameters, c.trainloader.len, [])

/-- FlowerClient.evaluate of the notebooks: sets the parameters, tests, and
returns (loss, len(valloader), {"accuracy": accuracy}). -/
def FlowerClient.evaluate (c : FlowerClient) (parameters : List ℚ) (_config : Metrics) :
    ℚ × ℕ × Metrics :=
  ((c.localTest parameters).1, c.valloader.len,
    [("accuracy", (c.localTest parameters).2)])

/-- The per-client part of load_datasets in the Flower-2 notebook: a
partition of n examples is split into len_val = n // 10 validation examples
and len_train = n - len_val training examples, and both loaders are built
with batch_size=32. -/
def load_datasets_client (n : ℕ) : DataLoader × DataLoader :=
  let len_val := n / 10
  let len_train := n - len_val
  (⟨len_train, 32⟩, ⟨len_val, 32⟩)

/-- C9: every FlowerClient reports the length of its DataLoader as its
sample-count weight: fit returns (updated parameters, len(trainloader), {})
and evaluate returns (loss, len(valloader), {"accuracy": accuracy}); the
loaders of load_datasets use batch_size=32, so the reported weight is the
number of mini-batches ⌈numExamples/32⌉, which differs from the number of
local examples whenever a loader holds at least two examples. -/
theorem client_reports_batch_count (c : FlowerClient) (params : List ℚ)
    (cfg : Metrics) (n k : ℕ) (hk : 2 ≤ k) :
    (c.fit params cfg) = (c.localTrain params, c.trainloader.len, [])
    ∧ (c.evaluate params cfg)
        = ((c.localTest params).1, c.valloader.len,
            [("accuracy", (c.localTest params).2)])
    ∧ (load_datasets_client n).1.batchSize = 32
    ∧ (load_datasets_client n).2.batchSize = 32
    ∧ (load_datasets_client n).1.numExamples = n - n / 10
    ∧ (DataLoader.mk k 32).len = (k + 31) / 32
    ∧ (DataLoader.mk k 32).len ≠ k := by
  refine ⟨rfl, rfl, rfl, rfl, rfl, rfl, ?_⟩
  show (k + 31) / 32 ≠ k
  have hlt : (k + 31) / 32 < k := by
    rw [Nat.div_lt_iff_lt_mul (by norm_num : 0 < 32)]
    omega
  omega

/-- C9 witness: the Flower-2 notebook partitions 50 examples per client,
giving 45 training examples, a trainloader of 2 mini-batches (2 ≠ 45), and a
client built on those loaders reports weight 2 in fit. -/
theorem client_reports_batch_count_witness :
    2 ≤ 45
    ∧ ((FlowerClient.mk ⟨45, 32⟩ ⟨5, 32⟩ id (fun _ => (0, 0))).fit [] []
          = ((id ([] : List ℚ)), (DataLoader.mk 45 32).len, [])
        ∧ (FlowerClient.mk ⟨45, 32⟩ ⟨5, 32⟩ id (fun _ => ((0:ℚ), (0:ℚ)))).evaluate [] []
          = (((fun _ : List ℚ => ((0:ℚ), (0:ℚ))) []).1, (DataLoader.mk 5 32).len,
              [("accuracy", ((fun _ : List ℚ => ((0:ℚ), (0:ℚ))) []).2)])
        ∧ (load_datasets_client 50).1.batchSize = 32
        ∧ (load_datasets_client 50).2.batchSize = 32
        ∧ (load_datasets_client 50).1.numExamples = 50 - 50 / 10
        ∧ (DataLoader.mk 45 32).len = (45 + 31) / 32
        ∧ (DataLoader.mk 45 32).len ≠ 45)
    ∧ (DataLoader.mk 45 32).len = 2 :=
  ⟨by norm_num,
    client_reports_batch_count
      (FlowerClient.mk ⟨45, 32⟩ ⟨5, 32⟩ id (fun _ => (0, 0))) [] [] 50 45
      (by norm_num),
    by norm_num [DataLoader.len]⟩

/-- The fit_config callback of the Flower-2 notebook (round-dependent
configuration cell):

    def fit_config(server_round: int):
        config = {
            "server_round": server_round,
            "local_epochs": 1 if server_round < 2 else 2,
        }
        return config
-/
def fit_config (server_round : ℕ) : List (String × ℕ) :=
  [("server_round", server_round),
   ("local_epochs", if server_round < 2 then 1 else 2)]

/-- C10: fit_config(server_round) returns the mapping
{"server_round": server_round, "local_epochs": 1 if server_round < 2 else 2};
with rounds numbered from 1, local_epochs is 1 exactly in round 1 and 2
exactly in every round ≥ 2. -/
theorem fit_config_local_epochs (r : ℕ) (hr : 1 ≤ r) :
    fit_config r = [("server_round", r),
      ("local_epochs", if r < 2 then 1 else 2)]
    ∧ ((fit_config r).lookup "local_epochs" = some 1 ↔ r = 1)
    ∧ ((fit_config r).lookup "local_epochs" = some 2 ↔ 2 ≤ r) := by
  refine ⟨rfl, ?_, ?_⟩ <;>
    rcases Nat.lt_or_ge r 2 with h | h <;>
      simp [fit_config, List.lookup, h] <;> omega

/-- C10 witness: in round 2, fit_config reports local_epochs = 2 (and not 1,
despite the docstring announcing one local epoch for the first two rounds). -/
theorem fit_config_local_epochs_witness :
    1 ≤ 2
    ∧ (fit_config 2 = [("server_round", 2),
        ("local_epochs", if 2 < 2 then 1 else 2)]
      ∧ ((fit_config 2).lookup "local_epochs" = some 1 ↔ 2 = 1)
      ∧ ((fit_config 2).lookup "local_epochs" = some 2 ↔ 2 ≤ 2)) :=
  ⟨by norm_num, fit_config_local_epochs 2 (by norm_num)⟩

end Flower
